import Mathlib

/-!
Verification development for the smart-order-router service.

The definitions below are shallow embeddings of the repository's TypeScript
sources:

* `src/utils/tokenUtils.ts`   — `TokenUtils.getToken` / `TokenUtils.addToken`
* `src/utils/snowflake.ts`    — `SnowflakeIdGenerator.nextId`
* `src/services/routerService.ts` — amount parsing in `getQuote`,
  `getTokenInfo` resolution cascade, no-route error messages
* `src/controllers/quoteController.ts` — `createSafeRouteCopy`,
  `formatRoute`, `extractRoutePaths`, `handleError`

JavaScript strings are modelled as Lean `String`, JS numbers/bigints as
`Nat`/`Int`, absent (`undefined`/`null`) values as `Option`, and thrown
exceptions as `Except`/`Option` error values.  External collaborators
(ethers.js, the Uniswap SDK) are modelled only at the boundary actually
exercised by the repository code, with comments marking each such boundary.
-/

/-! ## JavaScript string primitives -/

/-- ASCII lower-casing of one character, the fragment of JS
`String.prototype.toLowerCase` relevant to addresses and symbols. -/
def jsLowerChar (c : Char) : Char :=
  if 'A' ≤ c ∧ c ≤ 'Z' then Char.ofNat (c.toNat + 32) else c

/-- JS `s.toLowerCase()` (ASCII fragment). -/
def jsToLower (s : String) : String :=
  String.mk (s.data.map jsLowerChar)

/-- JS `s.includes(sub)`: substring containment. -/
def jsIncludes (s sub : String) : Bool :=
  decide (sub.data <:+: s.data)

/-- JS `s.substring(start, stop)` for in-range ascending indices:
drop `start` characters, keep the next `stop - start`. -/
def jsSubstring (s : String) (start stop : Nat) : String :=
  String.mk ((s.data.drop start).take (stop - start))

/-- JS `s.substring(s.length - k)`: the trailing `k` characters
(`Nat` subtraction matches the clamping JS performs on short strings). -/
def jsSuffix (s : String) (k : Nat) : String :=
  String.mk (s.data.drop (s.data.length - k))

/-- Truthiness of a JS string-or-absent value: `undefined`/`null` and the
empty string are falsy, every other string is truthy. -/
def jsTruthyStr : Option String → Bool
  | none => false
  | some s => s ≠ ""

/-! ## Token cache (`src/utils/tokenUtils.ts`)

`TokenUtils.tokensCache` is a `Record<number, TokenMap>`; a `TokenMap` maps
lower-cased addresses to `TokenInfo`.  File loading in `init()` touches the
filesystem and is outside the embedded fragment: the cache contents are taken
as the starting state. -/

/-- `TokenInfo` from `src/utils/tokenUtils.ts`. -/
structure TokenInfo where
  name : String
  symbol : String
  decimals : Nat
deriving DecidableEq, Repr

/-- One chain's `TokenMap` (keys are stored lower-cased by the code). -/
def TokenMap := String → Option TokenInfo

/-- The `tokensCache : Record<number, TokenMap>`; `none` models a chain id
with no entry yet. -/
def TokensCache := Nat → Option TokenMap

/-- `TokenUtils.getToken(chainId, address)`: lower-case the address, look up
the chain's map if present. -/
def TokenUtils.getToken (cache : TokensCache) (chainId : Nat) (address : String) :
    Option TokenInfo :=
  let normalizedAddress := jsToLower address
  match cache chainId with
  | some chainTokens => chainTokens normalizedAddress
  | none => none

/-- `TokenUtils.addToken(chainId, address, info)`: create the chain's map if
missing, then store `info` under the lower-cased address. -/
def TokenUtils.addToken (cache : TokensCache) (chainId : Nat) (address : String)
    (info : TokenInfo) : TokensCache :=
  let normalizedAddress := jsToLower address
  let chainTokens : TokenMap := match cache chainId with
    | some m => m
    | none => fun _ => none
  fun cid =>
    if cid = chainId then
      some (fun k => if k = normalizedAddress then some info else chainTokens k)
    else cache cid

/-- C10: after `addToken(chainId, address, info)`, `getToken(chainId, a)`
returns exactly `info` for every string `a` that equals `address` up to
letter case, because both operations normalise the key with `toLowerCase`. -/
theorem C10_addToken_getToken_case_insensitive
    (cache : TokensCache) (chainId : Nat) (address a : String) (info : TokenInfo)
    (hcase : jsToLower a = jsToLower address) :
    TokenUtils.getToken (TokenUtils.addToken cache chainId address info) chainId a
      = some info := by
  simp [TokenUtils.getToken, TokenUtils.addToken, hcase]

/-- Witness for C10 at a concrete cache, address pair differing only in case. -/
theorem C10_witness :
    jsToLower "0XABCD" = jsToLower "0xAbCd" ∧
      TokenUtils.getToken
        (TokenUtils.addToken (fun _ => none) 1 "0xAbCd" ⟨"Tok", "TK", 6⟩)
        1 "0XABCD" = some ⟨"Tok", "TK", 6⟩ :=
  ⟨by decide, C10_addToken_getToken_case_insensitive
    (fun _ => none) 1 "0xAbCd" "0XABCD" ⟨"Tok", "TK", 6⟩ (by decide)⟩

/-! ## Snowflake id generator (`src/utils/snowflake.ts`)

`nextId()` reads the wall clock (`currentTimestamp`) and, when the
per-millisecond sequence wraps, busy-waits in `tilNextMillis` until the clock
passes `lastTimestamp`.  The embedding factors the clock out: `t` is the
reading taken at entry and `w` the value `tilNextMillis(lastTimestamp)`
returns in the wrap case; the loop guarantees `w > lastTimestamp`, which
theorems take as a hypothesis.  BigInt values are modelled as `Int` (the
sequence, always in `0..4095`, as `Nat`). -/

/-- `twepoch`: the fixed epoch 2015-01-01 in milliseconds. -/
def twepoch : Int := 1420041600000

/-- `sequenceMask = -1n ^ (-1n << 12n) = 4095`. -/
def sequenceMask : Nat := 4095

/-- The generator's mutable fields `sequence` and `lastTimestamp`
(initialised to `0` and `-1`). -/
structure SnowflakeState where
  sequence : Nat
  lastTimestamp : Int
deriving Repr, DecidableEq

/-- The id composition of `nextId`:
`((timestamp - twepoch) << 22) | (dataCenterId << 17) | (workerId << 12) | sequence`,
with BigInt `<<` and `|` as `Int` shift and `Int.lor`. -/
def composeId (timestamp : Int) (dataCenterId workerId seq : Nat) : Int :=
  Int.lor (Int.lor (Int.lor ((timestamp - twepoch) <<< (22 : Int))
    ((dataCenterId : Int) <<< (17 : Int))) ((workerId : Int) <<< (12 : Int))) (seq : Int)

/-- `SnowflakeIdGenerator.nextId()`.  Control flow from the source: clock
rollback throws; within the same millisecond the sequence increments under
`sequenceMask`, waiting for timestamp `w` when it wraps to `0`; a fresh
millisecond resets the sequence.  Returns the numeric id (the source returns
`id.toString()`) together with the updated state. -/
def nextId (dataCenterId workerId : Nat) (g : SnowflakeState) (t w : Int) :
    Except String (Int × SnowflakeState) :=
  if t < g.lastTimestamp then
    let diff := g.lastTimestamp - t
    .error s!"Clock moved backwards. Refusing to generate ID for {diff} milliseconds"
  else if t = g.lastTimestamp then
    if (g.sequence + 1) &&& sequenceMask = 0 then
      .ok (composeId w dataCenterId workerId 0, ⟨0, w⟩)
    else
      .ok (composeId t dataCenterId workerId ((g.sequence + 1) &&& sequenceMask),
        ⟨(g.sequence + 1) &&& sequenceMask, t⟩)
  else
    .ok (composeId t dataCenterId workerId 0, ⟨0, t⟩)

/-- Bitwise-or of a left-shifted value with a small value is addition. -/
lemma shiftLeft_lor_eq_add (a b k : Nat) (hb : b < 2 ^ k) :
    (a <<< k) ||| b = a <<< k + b := by
  apply Nat.eq_of_testBit_eq
  intro i
  rw [Nat.testBit_lor, Nat.testBit_shiftLeft, Nat.shiftLeft_eq]
  rcases Nat.lt_or_ge i k with hik | hik
  · have h1 : decide (i ≥ k) = false := by simp; omega
    rw [h1]
    simp only [Bool.false_and, Bool.false_or]
    obtain ⟨d, hd⟩ : ∃ d, k = i + 1 + d := ⟨k - i - 1, by omega⟩
    subst hd
    have h2 : a * 2 ^ (i + 1 + d) + b = b + a * 2 ^ (1 + d) * 2 ^ i := by
      rw [pow_add]; ring
    rw [h2, Nat.testBit_to_div_mod, Nat.testBit_to_div_mod,
      Nat.add_mul_div_right _ _ (Nat.pos_pow_of_pos i (by norm_num))]
    have h3 : a * 2 ^ (1 + d) = a * 2 ^ d * 2 := by rw [pow_add]; ring
    rw [h3, Nat.add_mul_mod_self_right]
  · have h1 : decide (i ≥ k) = true := by simpa using hik
    rw [h1]
    simp only [Bool.true_and]
    have hbi : b.testBit i = false :=
      Nat.testBit_eq_false_of_lt (lt_of_lt_of_le hb (Nat.pow_le_pow_right (by norm_num) hik))
    rw [hbi, Bool.or_false]
    obtain ⟨d, hd⟩ : ∃ d, i = k + d := ⟨i - k, by omega⟩
    subst hd
    rw [Nat.testBit_to_div_mod, Nat.testBit_to_div_mod]
    have h2 : 2 ^ (k + d) = 2 ^ k * 2 ^ d := pow_add 2 k d
    rw [h2, ← Nat.div_div_eq_div_mul]
    have h3 : (a * 2 ^ k + b) / 2 ^ k = a + b / 2 ^ k := by
      rw [Nat.add_comm, Nat.add_mul_div_right _ _ (Nat.pos_pow_of_pos k (by norm_num)),
        Nat.add_comm]
    rw [h3, Nat.div_eq_of_lt hb, Nat.add_zero, Nat.add_sub_cancel_left]

/-- With the fields in their nominal ranges, the snowflake bit layout is plain
positional arithmetic. -/
lemma composeBits_eq (td dc wk s : Nat) (hdc : dc < 32) (hwk : wk < 32) (hs : s < 4096) :
    ((td <<< 22 ||| dc <<< 17) ||| wk <<< 12) ||| s
      = td * 2 ^ 22 + dc * 2 ^ 17 + wk * 2 ^ 12 + s := by
  have e1 : td <<< 22 ||| dc <<< 17 = td * 2 ^ 22 + dc * 2 ^ 17 := by
    have hlt : dc <<< 17 < 2 ^ 22 := by
      rw [Nat.shiftLeft_eq, show (2:ℕ) ^ 17 = 131072 from by norm_num,
        show (2:ℕ) ^ 22 = 4194304 from by norm_num]
      omega
    rw [shiftLeft_lor_eq_add _ _ _ hlt, Nat.shiftLeft_eq, Nat.shiftLeft_eq]
  have e2 : td * 2 ^ 22 + dc * 2 ^ 17 ||| wk <<< 12
      = td * 2 ^ 22 + dc * 2 ^ 17 + wk * 2 ^ 12 := by
    have hsh : td * 2 ^ 22 + dc * 2 ^ 17 = (td * 2 ^ 5 + dc) <<< 17 := by
      rw [Nat.shiftLeft_eq]; ring
    have hlt : wk <<< 12 < 2 ^ 17 := by
      rw [Nat.shiftLeft_eq, show (2:ℕ) ^ 12 = 4096 from by norm_num,
        show (2:ℕ) ^ 17 = 131072 from by norm_num]
      omega
    rw [hsh, shiftLeft_lor_eq_add _ _ _ hlt, Nat.shiftLeft_eq, Nat.shiftLeft_eq]
  have e3 : td * 2 ^ 22 + dc * 2 ^ 17 + wk * 2 ^ 12 ||| s
      = td * 2 ^ 22 + dc * 2 ^ 17 + wk * 2 ^ 12 + s := by
    have hsh : td * 2 ^ 22 + dc * 2 ^ 17 + wk * 2 ^ 12
        = (td * 2 ^ 10 + dc * 2 ^ 5 + wk) <<< 12 := by
      rw [Nat.shiftLeft_eq]; ring
    have hlt : s < 2 ^ 12 := by
      rw [show (2:ℕ) ^ 12 = 4096 from by norm_num]; omega
    rw [hsh, shiftLeft_lor_eq_add _ _ _ hlt, Nat.shiftLeft_eq]
  rw [e1, e2, e3]

/-- `Int.lor` on natural casts is the natural `lor`. -/
lemma int_lor_coe (x y : Nat) : Int.lor x y = ((x ||| y : Nat) : Int) := rfl

/-- Closed arithmetic form of `composeId` for timestamps past the epoch. -/
lemma composeId_eq (t : Int) (dc wk s : Nat) (ht : twepoch ≤ t)
    (hdc : dc < 32) (hwk : wk < 32) (hs : s < 4096) :
    composeId t dc wk s
      = (t - twepoch) * 2 ^ 22 + dc * 2 ^ 17 + wk * 2 ^ 12 + s := by
  obtain ⟨m, hm⟩ : ∃ m : Nat, t - twepoch = (m : Int) :=
    ⟨(t - twepoch).toNat, (Int.toNat_of_nonneg (by omega)).symm⟩
  unfold composeId
  rw [hm]
  have c22 : (22 : Int) = ((22 : Nat) : Int) := rfl
  have c17 : (17 : Int) = ((17 : Nat) : Int) := rfl
  have c12 : (12 : Int) = ((12 : Nat) : Int) := rfl
  rw [c22, c17, c12, Int.shiftLeft_coe_nat, Int.shiftLeft_coe_nat, Int.shiftLeft_coe_nat,
    int_lor_coe, int_lor_coe, int_lor_coe, composeBits_eq _ _ _ _ hdc hwk hs]
  push_cast
  ring

/-- C4: two back-to-back `nextId` calls observing the same millisecond return
distinct ids with the second strictly greater under numeric comparison of the
decimal strings (the string is the decimal print of the returned integer), and
an observed clock timestamp strictly before `lastTimestamp` makes `nextId`
throw instead of returning an id.  `w1`/`w2` are the `tilNextMillis` readings
with their loop postcondition `> t`. -/
theorem C4_nextId_monotone_and_rollback :
    (∀ (dc wk : Nat) (g : SnowflakeState) (t w1 w2 id1 id2 : Int)
        (g1 g2 : SnowflakeState),
        dc < 32 → wk < 32 → g.sequence < 4096 → twepoch ≤ t →
        t < w1 → t < w2 →
        nextId dc wk g t w1 = .ok (id1, g1) →
        nextId dc wk g1 t w2 = .ok (id2, g2) →
        id1 ≠ id2 ∧ id1 < id2) ∧
    (∀ (dc wk : Nat) (g : SnowflakeState) (t w : Int),
        t < g.lastTimestamp → ∃ msg, nextId dc wk g t w = .error msg) := by
  constructor
  · intro dc wk g t w1 w2 id1 id2 g1 g2 hdc hwk hseq ht hw1 hw2 h1 h2
    have p22 : (2 : Int) ^ 22 = 4194304 := by norm_num
    have p17 : (2 : Int) ^ 17 = 131072 := by norm_num
    have p12 : (2 : Int) ^ 12 = 4096 := by norm_num
    have hmask : ∀ x : Nat, x &&& sequenceMask = x % 4096 := by
      intro x
      rw [show sequenceMask = 2 ^ 12 - 1 from by norm_num [sequenceMask],
        Nat.and_pow_two_sub_one_eq_mod]
    unfold nextId at h1
    by_cases hlt : t < g.lastTimestamp
    · rw [if_pos hlt] at h1
      simp at h1
    rw [if_neg hlt] at h1
    by_cases hteq : t = g.lastTimestamp
    · rw [if_pos hteq] at h1
      by_cases hz : (g.sequence + 1) &&& sequenceMask = 0
      · -- sequence wrapped on the first call: its state records w1 > t, so a
        -- second observation of t would be rejected as a rollback
        rw [if_pos hz] at h1
        simp only [Except.ok.injEq, Prod.mk.injEq] at h1
        obtain ⟨hid1, hg1⟩ := h1
        unfold nextId at h2
        rw [← hg1, if_pos (show t < (⟨0, w1⟩ : SnowflakeState).lastTimestamp from hw1)] at h2
        simp at h2
      · rw [if_neg hz] at h1
        simp only [Except.ok.injEq, Prod.mk.injEq] at h1
        obtain ⟨hid1, hg1⟩ := h1
        obtain ⟨s1, hgen⟩ : ∃ s1, (g.sequence + 1) &&& sequenceMask = s1 := ⟨_, rfl⟩
        rw [hgen] at hid1 hg1 hz
        have hs1mod : s1 = (g.sequence + 1) % 4096 := by rw [← hgen, hmask]
        have hs1lt : s1 < 4096 := by omega
        unfold nextId at h2
        rw [← hg1] at h2
        dsimp only at h2
        rw [if_neg (show ¬ t < t from by omega), if_pos rfl] at h2
        by_cases hz2 : (s1 + 1) &&& sequenceMask = 0
        · rw [if_pos hz2] at h2
          simp only [Except.ok.injEq, Prod.mk.injEq] at h2
          obtain ⟨hid2, hg2⟩ := h2
          rw [composeId_eq t dc wk s1 ht hdc hwk hs1lt] at hid1
          rw [composeId_eq w2 dc wk 0 (by omega) hdc hwk (by norm_num)] at hid2
          rw [p22, p17, p12] at hid1 hid2
          constructor
          · intro hne
            rw [← hid1, ← hid2] at hne
            omega
          · rw [← hid1, ← hid2]
            omega
        · rw [if_neg hz2] at h2
          have he : (s1 + 1) &&& sequenceMask = s1 + 1 := by
            rw [hmask]
            rw [hmask] at hz2
            omega
          rw [he] at h2
          simp only [Except.ok.injEq, Prod.mk.injEq] at h2
          obtain ⟨hid2, hg2⟩ := h2
          rw [composeId_eq t dc wk s1 ht hdc hwk hs1lt] at hid1
          rw [composeId_eq t dc wk (s1 + 1) ht hdc hwk (by
            rw [hmask] at hz2
            omega)] at hid2
          rw [p22, p17, p12] at hid1 hid2
          constructor
          · intro hne
            rw [← hid1, ← hid2] at hne
            omega
          · rw [← hid1, ← hid2]
            omega
    · rw [if_neg hteq] at h1
      simp only [Except.ok.injEq, Prod.mk.injEq] at h1
      obtain ⟨hid1, hg1⟩ := h1
      unfold nextId at h2
      rw [← hg1] at h2
      dsimp only at h2
      rw [if_neg (show ¬ t < t from by omega), if_pos rfl] at h2
      have h01 : (0 + 1) &&& sequenceMask = 1 := by rw [hmask]
      rw [h01, if_neg (by norm_num)] at h2
      simp only [Except.ok.injEq, Prod.mk.injEq] at h2
      obtain ⟨hid2, hg2⟩ := h2
      rw [composeId_eq t dc wk 0 ht hdc hwk (by norm_num)] at hid1
      rw [composeId_eq t dc wk 1 ht hdc hwk (by norm_num)] at hid2
      rw [p22, p17, p12] at hid1 hid2
      constructor
      · intro hne
        rw [← hid1, ← hid2] at hne
        omega
      · rw [← hid1, ← hid2]
        omega
  · intro dc wk g t w hlt
    unfold nextId
    rw [if_pos hlt]
    exact ⟨_, rfl⟩

/-- Witness for C4: a concrete same-millisecond pair of calls (the generator
the controller builds uses worker id 1, data-center id 1) and a concrete
clock rollback. -/
theorem C4_witness :
    (∃ id1 g1 id2 g2,
        nextId 1 1 ⟨5, 1700000000000⟩ 1700000000000 1700000000001 = .ok (id1, g1) ∧
        nextId 1 1 g1 1700000000000 1700000000001 = .ok (id2, g2) ∧
        id1 ≠ id2 ∧ id1 < id2) ∧
    (∃ msg, nextId 1 1 ⟨0, 1700000000000⟩ 1699999999999 0 = .error msg) := by
  constructor
  · refine ⟨_, _, _, _, rfl, rfl, ?_⟩
    exact C4_nextId_monotone_and_rollback.1 1 1 ⟨5, 1700000000000⟩ 1700000000000
      1700000000001 1700000000001 _ _ _ _ (by decide) (by decide) (by decide)
      (by decide) (by decide) (by decide) rfl rfl
  · exact C4_nextId_monotone_and_rollback.2 1 1 ⟨0, 1700000000000⟩ 1699999999999 0 (by decide)

/-! ## Amount parsing in `RouterService.getQuote` (`src/services/routerService.ts`)

Lines 104-107: `tokenDecimals = type === 'exactIn' ? tokenIn.decimals :
tokenOut.decimals; amountWei = ethers.utils.parseUnits(amount, tokenDecimals)`. -/

/-- The `type` request parameter (`'exactIn' | 'exactOut'`). -/
inductive TradeType where
  | exactIn
  | exactOut
deriving DecidableEq, Repr

/-- Value of a list of decimal digit characters. -/
def digitsToNat (l : List Char) : Nat :=
  l.foldl (fun acc c => acc * 10 + (c.toNat - '0'.toNat)) 0

/-- Modelled boundary of ethers v5 `parseUnits(value, decimals)`
(`parseFixed`): optional leading sign, digits with at most one decimal point,
fractional part at most `decimals` digits long; the fraction is right-padded
with zeros to `decimals` places.  `none` models the thrown
`invalid decimal value` / `fractional component exceeds decimals` errors. -/
def parseUnits (value : String) (decimals : Nat) : Option Int :=
  let negative := value.data.take 1 = ['-']
  let body := if negative then value.data.drop 1 else value.data
  if body.isEmpty then none
  else if ¬ body.all (fun c => c.isDigit || c = '.') then none
  else if body = ['.'] then none
  else
    match body.splitOn '.' with
    | [whole] =>
        let mag : Int := digitsToNat whole * 10 ^ decimals
        some (if negative then -mag else mag)
    | [whole, fraction] =>
        if fraction.length > decimals then none
        else
          let mag : Int := digitsToNat whole * 10 ^ decimals
            + digitsToNat fraction * 10 ^ (decimals - fraction.length)
          some (if negative then -mag else mag)
    | _ => none

/-- The amount-to-smallest-unit conversion of `RouterService.getQuote`:
the decimal count is the input token's for `exactIn` and the output token's
for `exactOut`. -/
def amountWei (ty : TradeType) (tokenInDecimals tokenOutDecimals : Nat)
    (amount : String) : Option Int :=
  let tokenDecimals := if ty = .exactIn then tokenInDecimals else tokenOutDecimals
  parseUnits amount tokenDecimals

/-- C1: the conversion uses the input token's decimals for exact-input trades
and the output token's decimals for exact-output trades, and an exact-input
trade of amount "1" with 18 input decimals converts to 10^18. -/
theorem C1_amount_uses_direction_dependent_decimals :
    (∀ (dIn dOut : Nat) (amount : String),
        amountWei .exactIn dIn dOut amount = parseUnits amount dIn) ∧
    (∀ (dIn dOut : Nat) (amount : String),
        amountWei .exactOut dIn dOut amount = parseUnits amount dOut) ∧
    (∀ dOut : Nat, amountWei .exactIn 18 dOut "1" = some 1000000000000000000) := by
  refine ⟨fun dIn dOut amount => rfl, fun dIn dOut amount => rfl, fun dOut => ?_⟩
  show parseUnits "1" 18 = some 1000000000000000000
  decide

example : parseUnits "1.5" 18 = some 1500000000000000000 := by decide

example : parseUnits "1.2345" 2 = none := by decide

/-! ## No-route errors (`routerService.ts` lines 191-203,
`quoteController.ts` `handleError` lines 651-678) -/

set_option maxRecDepth 100000

/-- The known-good chain set tested in `getQuote`:
`ChainId.MAINNET | OPTIMISM | ARBITRUM_ONE | POLYGON | BASE`
(Uniswap sdk-core enum values 1, 10, 42161, 137, 8453). -/
def knownGoodChain (chainId : Nat) : Bool :=
  chainId = 1 || chainId = 10 || chainId = 42161 || chainId = 137 || chainId = 8453

/-- The error message thrown by `getQuote` when `router.route` returns no
route (`if (!route)` branch). -/
def noRouteErrorMessage (chainId : Nat) : String :=
  if knownGoodChain chainId then
    "No route found. There may not be enough liquidity for this trade."
  else
    s!"No route found. Chain {chainId} may not be fully supported by Uniswap. Consider using a chain-specific DEX instead."

/-- The chain ids present in `config.chains` (`src/config/config.ts`):
Mainnet, Optimism, Arbitrum One, Polygon, BNB, Avalanche, Celo, Base. -/
def configuredChains : List Nat := [1, 10, 42161, 137, 56, 43114, 42220, 8453]

/-- The regex match `errorMessage.match(/Chain (\d+)/)` followed by
`parseInt`: scan for the literal `Chain ` followed by at least one digit and
return the value of the digit run. -/
def findChainNumber : List Char → Option Nat
  | [] => none
  | c :: rest =>
    if ['C', 'h', 'a', 'i', 'n', ' '].isPrefixOf (c :: rest) then
      let ds := ((c :: rest).drop 6).takeWhile Char.isDigit
      if ds.isEmpty then findChainNumber rest
      else some (digitsToNat ds)
    else findChainNumber rest

/-- String-level wrapper for `findChainNumber`. -/
def matchChainNumber (s : String) : Option Nat := findChainNumber s.data

/-- The JSON error response assembled by `QuoteController.handleError`. -/
structure ErrorResponse where
  status : Nat
  error : String
  suggestion : Option String
deriving DecidableEq, Repr

/-- `QuoteController.handleError`: always HTTP 500 with the error message;
a `suggestion` is attached for BNB-chain messages and for the
`may not be fully supported by Uniswap` no-route variant. -/
def handleError (errorMessage : String) : ErrorResponse :=
  let suggestion : Option String :=
    if jsIncludes errorMessage "Chain 56" || jsIncludes (jsToLower errorMessage) "bnb chain" then
      some "For BNB Chain, consider using PancakeSwap API or SDK instead."
    else if jsIncludes errorMessage "may not be fully supported by Uniswap" then
      match matchChainNumber errorMessage with
      | some chainId =>
          if chainId ≠ 0 then some s!"Consider using a native DEX for chain {chainId}."
          else some "Consider using a chain-specific DEX that supports this blockchain."
      | none => some "Consider using a chain-specific DEX that supports this blockchain."
    else none
  ⟨500, errorMessage, suggestion⟩

/-- C9: an absent route on chain 1 yields the insufficient-liquidity message
with HTTP 500 and no suggestion; an absent route on any other configured
chain id yields an HTTP 500 response that carries a chain-specific
suggestion. -/
theorem C9_no_route_error_variants :
    (handleError (noRouteErrorMessage 1)
      = ⟨500, "No route found. There may not be enough liquidity for this trade.", none⟩) ∧
    (∀ chainId ∈ configuredChains, knownGoodChain chainId = false →
      (handleError (noRouteErrorMessage chainId)).status = 500 ∧
      (handleError (noRouteErrorMessage chainId)).suggestion.isSome) := by
  constructor
  · decide
  · intro chainId hmem hng
    fin_cases hmem <;> revert hng <;> decide

/-- Witness for C9 at the configured non-known-good chain 56. -/
theorem C9_witness :
    56 ∈ configuredChains ∧ knownGoodChain 56 = false ∧
      (handleError (noRouteErrorMessage 56)).status = 500 ∧
      (handleError (noRouteErrorMessage 56)).suggestion.isSome :=
  ⟨by decide, by decide,
    (C9_no_route_error_variants.2 56 (by decide) (by decide)).1,
    (C9_no_route_error_variants.2 56 (by decide) (by decide)).2⟩

example : (handleError (noRouteErrorMessage 56)).suggestion
    = some "For BNB Chain, consider using PancakeSwap API or SDK instead." := by decide

example : (handleError (noRouteErrorMessage 43114)).suggestion
    = some "Consider using a native DEX for chain 43114." := by decide
/-- Lookup after store hits when the two address strings agree after
lower-casing (shared by the cache theorems below). -/
lemma getToken_addToken (cache : TokensCache) (chainId : Nat) (address a : String)
    (info : TokenInfo) (hcase : jsToLower a = jsToLower address) :
    TokenUtils.getToken (TokenUtils.addToken cache chainId address info) chainId a
      = some info := by
  simp [TokenUtils.getToken, TokenUtils.addToken, hcase]


/-! ## Token resolution cascade (`RouterService.getTokenInfo`,
`src/services/routerService.ts` lines 253-471)

The resolver's effects are made explicit: `ResolveEnv` carries the pieces of
the outside world the method consults (chain configuration, the
`TokenUtils` cache, the primary three-field contract lookup, and the
decimals-only retry lookup, `none` modelling a rejected/thrown RPC call);
`ResolveResult` carries the returned-or-thrown value, the cache after the
call, and how many contract lookups were attempted. -/

/-- A resolved currency: either the chain's native currency or an ERC20
`Token`. -/
structure TokenDescriptor where
  isNative : Bool
  chainId : Nat
  address : String
  symbol : String
  name : String
  decimals : Nat
deriving DecidableEq, Repr

/-- Modelled boundary of `nativeOnChain(chainId)` from
`@uniswap/smart-order-router`: total, returns the chain's native-currency
descriptor (18 decimals for the ether-style currencies the service
configures). -/
def nativeOnChain (chainId : Nat) : TokenDescriptor :=
  ⟨true, chainId, "", "NATIVE", "Native Currency", 18⟩

/-- Modelled boundary of the address validation performed by the sdk-core
`Token` constructor (`validateAndParseAddress`, ethers `getAddress`): `0x`
plus 40 hex digits.  The embedding accepts the all-lower-case form; the
mixed-case checksum variant needs keccak and stays outside the model. -/
def isValidAddress (s : String) : Bool :=
  decide (s.data.length = 42) && decide (s.data.take 2 = ['0', 'x']) &&
    (s.data.drop 2).all fun c => c.isDigit || (decide ('a' ≤ c) && decide (c ≤ 'f'))

/-- Modelled boundary of `new Token(chainId, address, decimals, symbol,
name)`: throws (`none`) exactly when the address fails validation. -/
def mkToken (chainId : Nat) (address : String) (decimals : Nat)
    (symbol name : String) : Option TokenDescriptor :=
  if isValidAddress address then some ⟨false, chainId, address, symbol, name, decimals⟩
  else none

/-- `Token` construction succeeds on a valid address. -/
lemma mkToken_valid (chainId : Nat) (address : String) (decimals : Nat)
    (symbol name : String) (h : isValidAddress address = true) :
    mkToken chainId address decimals symbol name
      = some ⟨false, chainId, address, symbol, name, decimals⟩ := by
  simp [mkToken, h]

/-- The outside world consulted by `getTokenInfo`. -/
structure ResolveEnv where
  chainConfigured : Nat → Bool
  cache : TokensCache
  contractLookup : Nat → String → Option (String × String × Nat)
  fallbackDecimals : Nat → String → Option Nat

/-- Result of one `getTokenInfo` call: the returned descriptor or thrown
message, the token cache afterwards, and the number of contract lookups
attempted. -/
structure ResolveResult where
  result : Except String TokenDescriptor
  cache : TokensCache
  rpcCalls : Nat

/-- `nativeTokenSymbols` from line 257. -/
def nativeTokenSymbols : List String := ["eth", "bnb", "matic", "avax", "celo", "native"]

/-- The all-`0xee` native sentinel address (line 261). -/
def sentinelNativeAddress : String := "0xeeeeeeeeeeeeeeeeeeeeeeeeeeeeeeeeeeeeeeee"

/-- The all-zero native sentinel address (line 262). -/
def zeroAddress : String := "0x0000000000000000000000000000000000000000"

/-- The hardcoded USDT-on-Arbitrum override address (line 348). -/
def usdtArbitrumAddress : String := "0xfd086bc7cd5c481dcc9c85ebe478a1c0b69fcbb9"

/-- `isNativeBySymbol || isNativeByAddress` (lines 259-264). -/
def isNativeTokenInput (normalized : String) : Bool :=
  nativeTokenSymbols.contains normalized ||
    (normalized == sentinelNativeAddress || normalized == zeroAddress)

/-- The hard error thrown by the outer catch (line 469). -/
def hardFailureMessage (chainId : Nat) (tokenAddress : String) : String :=
  s!"Failed to fetch token info for {tokenAddress} on chain {chainId}"

/-- The final assume-18-decimals fallback (lines 446-465): synthesize
placeholder name/symbol from the address, cache, construct the token. -/
def defaultTokenResult (chainId : Nat) (tokenAddress normalized : String)
    (cacheIn : TokensCache) (rpc : Nat) : ResolveResult :=
  let info : TokenInfo :=
    ⟨s!"Unknown Token {jsSubstring tokenAddress 2 10}",
      s!"TKN-{jsSubstring tokenAddress 2 6}", 18⟩
  let cache1 := TokenUtils.addToken cacheIn chainId normalized info
  match mkToken chainId tokenAddress 18 info.symbol info.name with
  | some tok => ⟨.ok tok, cache1, rpc⟩
  | none => ⟨.error (hardFailureMessage chainId tokenAddress), cache1, rpc⟩

/-- The reduced decimals-only retry (lines 394-446): needs the chain's
configured RPC URL (an unconfigured chain throws at
`config.chains[chainId].rpcUrl` and falls to the default branch without a
call); on success caches and constructs, on any failure falls back to
`defaultTokenResult`. -/
def fallbackRetryResult (env : ResolveEnv) (chainId : Nat)
    (tokenAddress normalized : String) (cacheIn : TokensCache) (rpc : Nat) : ResolveResult :=
  if env.chainConfigured chainId then
    match env.fallbackDecimals chainId tokenAddress with
    | some tokenDecimals =>
        let shortAddr := jsSuffix tokenAddress 4
        let info : TokenInfo := ⟨s!"Token {shortAddr}", s!"TKN-{shortAddr}", tokenDecimals⟩
        let cache1 := TokenUtils.addToken cacheIn chainId normalized info
        match mkToken chainId tokenAddress tokenDecimals info.symbol info.name with
        | some tok => ⟨.ok tok, cache1, rpc + 1⟩
        | none => defaultTokenResult chainId tokenAddress normalized cache1 (rpc + 1)
    | none => defaultTokenResult chainId tokenAddress normalized cacheIn (rpc + 1)
  else
    defaultTokenResult chainId tokenAddress normalized cacheIn rpc

/-- The heuristic fallback chain entered when the primary contract lookup
throws (lines 346-465): hardcoded USDT-on-Arbitrum override, then
address-substring stablecoin matches, then the retry/default branches.
The override and substring branches construct their token directly and do
not touch the cache. -/
def tokenFallbacks (env : ResolveEnv) (chainId : Nat)
    (tokenAddress normalized : String) (cacheIn : TokensCache) (rpc : Nat) : ResolveResult :=
  if normalized == usdtArbitrumAddress && chainId == 42161 then
    match mkToken chainId tokenAddress 6 "USDT" "Tether USD" with
    | some tok => ⟨.ok tok, cacheIn, rpc⟩
    | none => ⟨.error (hardFailureMessage chainId tokenAddress), cacheIn, rpc⟩
  else if jsIncludes normalized "usdt" || jsIncludes normalized "tether" then
    match mkToken chainId tokenAddress 6 "USDT" "Tether USD" with
    | some tok => ⟨.ok tok, cacheIn, rpc⟩
    | none => ⟨.error (hardFailureMessage chainId tokenAddress), cacheIn, rpc⟩
  else if jsIncludes normalized "usdc" || jsIncludes normalized "usd-coin" then
    match mkToken chainId tokenAddress 6 "USDC" "USD Coin" with
    | some tok => ⟨.ok tok, cacheIn, rpc⟩
    | none => ⟨.error (hardFailureMessage chainId tokenAddress), cacheIn, rpc⟩
  else if jsIncludes normalized "dai" then
    match mkToken chainId tokenAddress 18 "DAI" "Dai Stablecoin" with
    | some tok => ⟨.ok tok, cacheIn, rpc⟩
    | none => ⟨.error (hardFailureMessage chainId tokenAddress), cacheIn, rpc⟩
  else
    fallbackRetryResult env chainId tokenAddress normalized cacheIn rpc

/-- `RouterService.getTokenInfo(chainId, tokenAddress)`: native detection,
then the `TokenUtils` cache, then the on-chain lookup (which caches on
success), then the heuristic fallbacks.  A `Token`-constructor throw in the
cache branch escapes to the outer catch; one in the contract branch is
caught by the `contractError` handler and enters the fallbacks. -/
def getTokenInfo (env : ResolveEnv) (chainId : Nat) (tokenAddress : String) : ResolveResult :=
  let normalizedTokenAddress := jsToLower tokenAddress
  if isNativeTokenInput normalizedTokenAddress then
    ⟨.ok (nativeOnChain chainId), env.cache, 0⟩
  else
    match TokenUtils.getToken env.cache chainId normalizedTokenAddress with
    | some tokenInfo =>
        match mkToken chainId tokenAddress tokenInfo.decimals tokenInfo.symbol tokenInfo.name with
        | some tok => ⟨.ok tok, env.cache, 0⟩
        | none => ⟨.error (hardFailureMessage chainId tokenAddress), env.cache, 0⟩
    | none =>
        match env.contractLookup chainId tokenAddress with
        | some (nm, sym, dec) =>
            let cache1 := TokenUtils.addToken env.cache chainId normalizedTokenAddress
              ⟨nm, sym, dec⟩
            match mkToken chainId tokenAddress dec sym nm with
            | some tok => ⟨.ok tok, cache1, 1⟩
            | none => tokenFallbacks env chainId tokenAddress normalizedTokenAddress cache1 1
        | none => tokenFallbacks env chainId tokenAddress normalizedTokenAddress env.cache 1

-- C3 helper lemmas

/-- The default branch returns a descriptor whenever the address is valid. -/
lemma defaultTokenResult_ok (chainId : Nat) (tokenAddress normalized : String)
    (cacheIn : TokensCache) (rpc : Nat) (hval : isValidAddress tokenAddress = true) :
    ∃ tok, (defaultTokenResult chainId tokenAddress normalized cacheIn rpc).result
      = .ok tok := by
  unfold defaultTokenResult
  dsimp only
  rw [mkToken_valid _ _ _ _ _ hval]
  exact ⟨_, rfl⟩

/-- The retry branch returns a descriptor whenever the address is valid. -/
lemma fallbackRetryResult_ok (env : ResolveEnv) (chainId : Nat)
    (tokenAddress normalized : String) (cacheIn : TokensCache) (rpc : Nat)
    (hval : isValidAddress tokenAddress = true) :
    ∃ tok, (fallbackRetryResult env chainId tokenAddress normalized cacheIn rpc).result
      = .ok tok := by
  unfold fallbackRetryResult
  by_cases hc : env.chainConfigured chainId
  · rw [if_pos hc]
    cases hd : env.fallbackDecimals chainId tokenAddress with
    | some d =>
        dsimp only
        rw [mkToken_valid _ _ _ _ _ hval]
        exact ⟨_, rfl⟩
    | none =>
        exact defaultTokenResult_ok _ _ _ _ _ hval
  · rw [if_neg hc]
    exact defaultTokenResult_ok _ _ _ _ _ hval

/-- Every heuristic fallback branch returns a descriptor whenever the
address is valid. -/
lemma tokenFallbacks_ok (env : ResolveEnv) (chainId : Nat)
    (tokenAddress normalized : String) (cacheIn : TokensCache) (rpc : Nat)
    (hval : isValidAddress tokenAddress = true) :
    ∃ tok, (tokenFallbacks env chainId tokenAddress normalized cacheIn rpc).result
      = .ok tok := by
  unfold tokenFallbacks
  split_ifs with h1 h2 h3 h4
  · rw [mkToken_valid _ _ _ _ _ hval]; exact ⟨_, rfl⟩
  · rw [mkToken_valid _ _ _ _ _ hval]; exact ⟨_, rfl⟩
  · rw [mkToken_valid _ _ _ _ _ hval]; exact ⟨_, rfl⟩
  · rw [mkToken_valid _ _ _ _ _ hval]; exact ⟨_, rfl⟩
  · exact fallbackRetryResult_ok _ _ _ _ _ _ hval

/-- C3: for every environment, chain id and syntactically valid
address-or-symbol input (a native alias/sentinel or a well-formed address),
`getTokenInfo` returns a descriptor rather than throwing: every RPC and
contract failure is absorbed by the cascade.  Only inputs failing address
validation can reach the hard-error path. -/
theorem C3_getTokenInfo_never_throws_for_valid_input :
    ∀ (env : ResolveEnv) (chainId : Nat) (input : String),
      (isNativeTokenInput (jsToLower input) = true ∨ isValidAddress input = true) →
      ∃ tok, (getTokenInfo env chainId input).result = .ok tok := by
  intro env chainId input h
  unfold getTokenInfo
  by_cases hnat : isNativeTokenInput (jsToLower input) = true
  · rw [if_pos hnat]
    exact ⟨_, rfl⟩
  · have hval : isValidAddress input = true := by
      rcases h with h | h
      · exact absurd h hnat
      · exact h
    rw [if_neg hnat]
    cases hcache : TokenUtils.getToken env.cache chainId (jsToLower input) with
    | some info =>
        dsimp only
        rw [mkToken_valid _ _ _ _ _ hval]
        exact ⟨_, rfl⟩
    | none =>
        dsimp only
        cases hcl : env.contractLookup chainId input with
        | some triple =>
            obtain ⟨nm, sym, dec⟩ := triple
            dsimp only
            rw [mkToken_valid _ _ _ _ _ hval]
            exact ⟨_, rfl⟩
        | none =>
            exact tokenFallbacks_ok _ _ _ _ _ _ hval

/-- Witness for C3: a valid address against an environment whose RPC calls
all fail still resolves. -/
theorem C3_witness :
    (isNativeTokenInput (jsToLower "0xa0b86991c6218b36c1d19d4a2e9eb0ce3606eb48") = true ∨
      isValidAddress "0xa0b86991c6218b36c1d19d4a2e9eb0ce3606eb48" = true) ∧
    ∃ tok, (getTokenInfo
        ⟨fun _ => false, fun _ => none, fun _ _ => none, fun _ _ => none⟩
        1 "0xa0b86991c6218b36c1d19d4a2e9eb0ce3606eb48").result = .ok tok :=
  ⟨Or.inr (by decide),
    C3_getTokenInfo_never_throws_for_valid_input
      ⟨fun _ => false, fun _ => none, fun _ _ => none, fun _ _ => none⟩
      1 "0xa0b86991c6218b36c1d19d4a2e9eb0ce3606eb48" (Or.inr (by decide))⟩

/-- C5: any input that lower-cases into the native alias set or equals a
native sentinel address resolves to the chain's native descriptor with the
cache untouched and zero contract lookups. -/
theorem C5_native_aliases_resolve_without_rpc :
    ∀ (env : ResolveEnv) (chainId : Nat) (input : String),
      isNativeTokenInput (jsToLower input) = true →
      getTokenInfo env chainId input = ⟨.ok (nativeOnChain chainId), env.cache, 0⟩ := by
  intro env chainId input h
  unfold getTokenInfo
  rw [if_pos h]

/-- Witness for C5 at input `"ETH"` on chain 56. -/
theorem C5_witness :
    isNativeTokenInput (jsToLower "ETH") = true ∧
      getTokenInfo ⟨fun _ => true, fun _ => none, fun _ _ => none, fun _ _ => none⟩ 56 "ETH"
        = ⟨.ok (nativeOnChain 56), fun _ => none, 0⟩ :=
  ⟨by decide,
    C5_native_aliases_resolve_without_rpc
      ⟨fun _ => true, fun _ => none, fun _ _ => none, fun _ _ => none⟩ 56 "ETH" (by decide)⟩

-- C6 counterexample: hardcoded-override fallback result is not cached

/-- C6 counterexample: on chain 42161 with an empty cache and a failing
contract lookup, the hardcoded USDT override produces the returned
descriptor, yet nothing is written to the token cache, and a repeated
resolution issues the contract lookup again. -/
theorem C6_counterexample :
    (getTokenInfo ⟨fun _ => true, fun _ => none, fun _ _ => none, fun _ _ => none⟩
        42161 usdtArbitrumAddress).result
      = .ok ⟨false, 42161, usdtArbitrumAddress, "USDT", "Tether USD", 6⟩ ∧
    TokenUtils.getToken
      (getTokenInfo ⟨fun _ => true, fun _ => none, fun _ _ => none, fun _ _ => none⟩
        42161 usdtArbitrumAddress).cache 42161 usdtArbitrumAddress = none ∧
    (getTokenInfo
        ⟨fun _ => true,
          (getTokenInfo ⟨fun _ => true, fun _ => none, fun _ _ => none, fun _ _ => none⟩
            42161 usdtArbitrumAddress).cache,
          fun _ _ => none, fun _ _ => none⟩
        42161 usdtArbitrumAddress).rpcCalls = 1 := by
  exact ⟨rfl, rfl, rfl⟩

/-- C6 amended: only the decimals-only retry and the final default fallback
branches write the resolved token to the cache; the hardcoded-override and
address-substring stablecoin branches return without caching. -/
theorem C6_amended_fallback_caching :
    (∀ (env : ResolveEnv) (chainId : Nat) (input : String),
      isNativeTokenInput (jsToLower input) = false →
      TokenUtils.getToken env.cache chainId (jsToLower input) = none →
      env.contractLookup chainId input = none →
      (jsToLower input == usdtArbitrumAddress && chainId == 42161) = false →
      jsIncludes (jsToLower input) "usdt" = false →
      jsIncludes (jsToLower input) "tether" = false →
      jsIncludes (jsToLower input) "usdc" = false →
      jsIncludes (jsToLower input) "usd-coin" = false →
      jsIncludes (jsToLower input) "dai" = false →
      (TokenUtils.getToken (getTokenInfo env chainId input).cache chainId
        (jsToLower input)).isSome = true) ∧
    (∀ (env : ResolveEnv) (chainId : Nat) (input : String),
      isNativeTokenInput (jsToLower input) = false →
      TokenUtils.getToken env.cache chainId (jsToLower input) = none →
      env.contractLookup chainId input = none →
      ((jsToLower input == usdtArbitrumAddress && chainId == 42161) = true ∨
        jsIncludes (jsToLower input) "usdt" = true ∨
        jsIncludes (jsToLower input) "tether" = true ∨
        jsIncludes (jsToLower input) "usdc" = true ∨
        jsIncludes (jsToLower input) "usd-coin" = true ∨
        jsIncludes (jsToLower input) "dai" = true) →
      (getTokenInfo env chainId input).cache = env.cache) := by
  constructor
  · intro env chainId input hnat hcache hcl hov husdt htether husdc husdcoin hdai
    unfold getTokenInfo
    rw [if_neg (by simp [hnat])]
    rw [hcache, hcl]
    dsimp only
    unfold tokenFallbacks
    rw [if_neg (by simp [hov]), if_neg (by simp [husdt, htether]),
      if_neg (by simp [husdc, husdcoin]), if_neg (by simp [hdai])]
    unfold fallbackRetryResult defaultTokenResult
    dsimp only
    by_cases hc : env.chainConfigured chainId
    · rw [if_pos hc]
      repeat' split
      all_goals rw [getToken_addToken _ _ _ _ _ rfl]
      all_goals rfl
    · rw [if_neg hc]
      repeat' split
      all_goals rw [getToken_addToken _ _ _ _ _ rfl]
      all_goals rfl
  · intro env chainId input hnat hcache hcl hbr
    unfold getTokenInfo
    rw [if_neg (by simp [hnat])]
    rw [hcache, hcl]
    dsimp only
    unfold tokenFallbacks
    by_cases h1 : (jsToLower input == usdtArbitrumAddress && chainId == 42161) = true
    · rw [if_pos h1]
      split <;> rfl
    · rw [if_neg h1]
      by_cases h2 : (jsIncludes (jsToLower input) "usdt" || jsIncludes (jsToLower input) "tether") = true
      · rw [if_pos h2]
        split <;> rfl
      · rw [if_neg h2]
        by_cases h3 : (jsIncludes (jsToLower input) "usdc" || jsIncludes (jsToLower input) "usd-coin") = true
        · rw [if_pos h3]
          split <;> rfl
        · rw [if_neg h3]
          have h4 : jsIncludes (jsToLower input) "dai" = true := by
            rcases hbr with h | h | h | h | h | h
            · exact absurd h h1
            · exact absurd (by simp [h]) h2
            · exact absurd (by simp [h]) h2
            · exact absurd (by simp [h]) h3
            · exact absurd (by simp [h]) h3
            · exact h
          rw [if_pos h4]
          split <;> rfl

/-- Witness for C6 amended: a concrete address resolved through the default
branch is cached, and a concrete substring-matched input leaves the cache
untouched. -/
theorem C6_amended_witness :
    ((isNativeTokenInput (jsToLower "0x1111111111111111111111111111111111111111") = false ∧
      (TokenUtils.getToken
        (getTokenInfo ⟨fun _ => false, fun _ => none, fun _ _ => none, fun _ _ => none⟩
          1 "0x1111111111111111111111111111111111111111").cache 1
        (jsToLower "0x1111111111111111111111111111111111111111")).isSome = true) ∧
     (getTokenInfo ⟨fun _ => false, fun _ => none, fun _ _ => none, fun _ _ => none⟩
        7 "dai").cache = (fun _ => none)) := by
  refine ⟨⟨by decide, ?_⟩, ?_⟩
  · exact C6_amended_fallback_caching.1
      ⟨fun _ => false, fun _ => none, fun _ _ => none, fun _ _ => none⟩
      1 "0x1111111111111111111111111111111111111111"
      (by decide) rfl rfl (by decide) (by decide) (by decide) (by decide) (by decide) (by decide)
  · exact C6_amended_fallback_caching.2
      ⟨fun _ => false, fun _ => none, fun _ _ => none, fun _ _ => none⟩
      7 "dai" (by decide) rfl rfl (Or.inr (Or.inr (Or.inr (Or.inr (Or.inr (by decide))))))

/-! ## Route formatting (`QuoteController.formatRoute`,
`extractRoutePaths`, `extractTokenPath`, `getReadableRouteString`,
`findPoolAddresses` — `src/controllers/quoteController.ts` lines 259-553)

The raw route object is the external routing engine's result; the fields the
controller probes are modelled as `Option`-valued record fields (`none` =
absent/`undefined`).  The optional-chain-plus-`||` patterns
(`x?.toExact?.() || y`) collapse to `jsOrStr`; only the one unguarded
property access (`pool.token0.address`, line 285) can throw inside
`formatRoute`'s `try`, modelled by `poolPathEntry` returning `none`. -/

/-- JS `v || dflt` on a string-or-absent value. -/
def jsOrStr (v : Option String) (dflt : String) : String :=
  match v with
  | some s => if s = "" then dflt else s
  | none => dflt

/-- A JS value interpolated into a string: `undefined` prints as
`"undefined"`. -/
def jsUndefStr : Option String → String
  | some s => s
  | none => "undefined"

/-- A token reference inside the raw route (symbol/address/decimals may all
be absent). -/
structure RawTok where
  symbol : Option String
  address : Option String
  decimals : Option Nat
deriving DecidableEq, Repr

/-- The raw `route.quote` object: `toExact` holds the result of
`toExact()` when callable, `currency` the nested currency. -/
structure RawQuote where
  toExact : Option String
  currency : Option RawTok
deriving DecidableEq, Repr

/-- A raw pool object. -/
structure RawPool where
  fee : Option Nat
  liquidity : Option String
  address : Option String
  id : Option String
  token0 : Option RawTok
  token1 : Option RawTok
deriving DecidableEq, Repr

/-- The raw `swap.route` object of the structured trade shape. -/
structure RawSwapRoute where
  tokenPath : Option (List RawTok)
  pools : Option (List RawPool)
  protocol : Option String
deriving DecidableEq, Repr

/-- One entry of `route.trade.swaps`; the amount fields hold the values the
code copies (`swap.inputAmount`/`swap.outputAmount`). -/
structure RawSwap where
  route : Option RawSwapRoute
  inputAmount : Option String
  outputAmount : Option String
deriving DecidableEq, Repr

/-- The raw `route.trade` object. -/
structure RawTrade where
  swaps : Option (List RawSwap)
deriving DecidableEq, Repr

/-- One element of the `route.route` array probed by `extractRoutePaths`
and `findPoolAddresses`. -/
structure RawRouteElem where
  protocol : Option String
  fee : Option Nat
  poolAddresses : Option (List String)
  pools : Option (List RawPool)
  pool : Option RawPool
deriving DecidableEq, Repr

/-- The raw routing-engine result, restricted to the fields the controller
probes.  `methodParametersTo` collapses `methodParameters?.to`; `toStr` is
`some s` when the object carries a `toString` returning `s ≠
"[object Object]"`. -/
structure RawRoute where
  trade : Option RawTrade
  pools : Option (List RawPool)
  route : Option (List RawRouteElem)
  path : Option (List String)
  fee : Option Nat
  protocol : Option String
  methodParametersTo : Option String
  amountIn : Option String
  amount : Option String
  amountOut : Option String
  quote : Option RawQuote
  quoteAmount : Option String
  tokenPath : Option (List RawTok)
  tokenIn : Option RawTok
  tokenOut : Option RawTok
  input : Option RawTok
  output : Option RawTok
  toStr : Option String
deriving DecidableEq, Repr

/-- Formatted token reference inside a pool entry. -/
structure FormattedTokRef where
  symbol : String
  address : String
deriving DecidableEq, Repr

/-- Formatted pool entry — `formatRoute`'s shape carries `token0`/`token1`,
`extractRoutePaths`'s shape carries `address`. -/
structure FormattedPool where
  fee : String
  liquidity : String
  address : Option String
  token0 : Option FormattedTokRef
  token1 : Option FormattedTokRef
deriving DecidableEq, Repr

/-- One formatted path entry (`protocol`, pool-address list, joined fee
string, optional pool detail). -/
structure FormattedPath where
  protocol : String
  path : List String
  fee : String
  pools : Option (List FormattedPool)
deriving DecidableEq, Repr

/-- One formatted token-path entry. -/
structure FormattedTokenEntry where
  symbol : String
  address : String
  decimals : Option Nat
deriving DecidableEq, Repr

/-- `formatRoute`'s output shape (the gas pass-through fields it copies
verbatim are omitted). -/
structure FormattedRoute where
  routeString : String
  paths : List FormattedPath
  tokenPath : List FormattedTokenEntry
  amountIn : String
  amountOut : String
  router : Option String
deriving DecidableEq, Repr

/-- Two-digit zero padding. -/
def pad2 (n : Nat) : String :=
  if n < 10 then "0" ++ toString n else toString n

/-- Model of `` `${(fee / 10000).toFixed(2)}%` ``: the basis-point fee
divided by 10,000 and printed with two decimals (`toFixed`'s float rounding
is modelled as exact rational round-half-up). -/
def formatFeeBps (fee : Nat) : String :=
  let cents := (fee + 50) / 100
  s!"{cents / 100}.{pad2 (cents % 100)}%"

/-- `` pool.fee ? `${(pool.fee / 10000).toFixed(2)}%` : 'Unknown' `` —
note a fee of `0` is falsy and prints `Unknown`. -/
def poolFeeString (fee : Option Nat) : String :=
  match fee with
  | some f => if f ≠ 0 then formatFeeBps f else "Unknown"
  | none => "Unknown"

/-- The pool entry built in `formatRoute`'s structured branch
(lines 289-300). -/
def formatPool (pool : RawPool) : FormattedPool :=
  { fee := poolFeeString pool.fee
    liquidity := jsOrStr pool.liquidity "Unknown"
    address := none
    token0 := some ⟨jsOrStr (pool.token0 >>= RawTok.symbol) "Unknown",
      jsOrStr (pool.token0 >>= RawTok.address) "Unknown"⟩
    token1 := some ⟨jsOrStr (pool.token1 >>= RawTok.symbol) "Unknown",
      jsOrStr (pool.token1 >>= RawTok.address) "Unknown"⟩ }

/-- `pool.token0.address + '-' + pool.token1.address` (line 285): the only
unguarded accesses in `formatRoute`'s `try`; `none` models the `TypeError`
thrown when `token0`/`token1` is absent. -/
def poolPathEntry (pool : RawPool) : Option String :=
  match pool.token0, pool.token1 with
  | some t0, some t1 => some (jsUndefStr t0.address ++ "-" ++ jsUndefStr t1.address)
  | _, _ => none

/-- The `swap.route.pools.map(...)` of line 285; `none` when any pool
throws. -/
def poolsPathStrings : List RawPool → Option (List String)
  | [] => some []
  | pool :: rest =>
    match poolPathEntry pool, poolsPathStrings rest with
    | some s, some l => some (s :: l)
    | _, _ => none

/-- `QuoteController.findPoolAddresses` (lines 538-553). -/
def findPoolAddresses (path : RawRouteElem) : List String :=
  match path.poolAddresses with
  | some l => l
  | none =>
    match path.pools with
    | some pools => pools.map (fun pool => jsOrStr pool.address (jsOrStr pool.id "Unknown pool"))
    | none =>
      if jsTruthyStr (path.pool >>= RawPool.address) then
        [jsUndefStr (path.pool >>= RawPool.address)]
      else []

/-- `path.fee?.toString() || 'Unknown'` — the raw, unformatted fee
rendering of the `route.route`-array and `route.path` branches. -/
def rawFeeString (fee : Option Nat) : String :=
  match fee with
  | some f => toString f
  | none => "Unknown"

/-- `QuoteController.extractRoutePaths` (lines 413-469).  The `route.pools`
branch formats fees as percentages; the `route.route`-array and
`route.path` branches emit `fee?.toString()` raw. -/
def extractRoutePaths (route : RawRoute) : List FormattedPath :=
  match route.pools with
  | some pools =>
      [{ protocol := "V3"
         path := pools.map (fun pool => jsOrStr pool.address (jsOrStr pool.id "Unknown pool"))
         fee := String.intercalate ", " (pools.map (fun pool => poolFeeString pool.fee))
         pools := some (pools.map (fun pool =>
           { fee := poolFeeString pool.fee
             liquidity := jsOrStr pool.liquidity "Unknown"
             address := some (jsOrStr pool.address (jsOrStr pool.id "Unknown"))
             token0 := none
             token1 := none })) }]
  | none =>
    match route.route with
    | some arr =>
        arr.map (fun path =>
          { protocol := jsOrStr path.protocol "Unknown"
            path := findPoolAddresses path
            fee := rawFeeString path.fee
            pools := none })
    | none =>
      if jsTruthyStr route.methodParametersTo then
        [{ protocol := "Unknown", path := [], fee := "Unknown", pools := none }]
      else
        match route.path with
        | some p =>
            [{ protocol := jsOrStr route.protocol "Unknown"
               path := p
               fee := rawFeeString route.fee
               pools := none }]
        | none => []

/-- `QuoteController.extractTokenPath` (lines 474-533). -/
def extractTokenPath (route : RawRoute) : List FormattedTokenEntry :=
  match route.tokenPath with
  | some toks =>
      toks.map (fun t => ⟨jsOrStr t.symbol "Unknown", jsOrStr t.address "Unknown", none⟩)
  | none =>
    match route.tokenIn, route.tokenOut with
    | some tin, some tout =>
        [⟨jsOrStr tin.symbol "Input Token", jsOrStr tin.address "Unknown", none⟩,
          ⟨jsOrStr tout.symbol "Output Token", jsOrStr tout.address "Unknown", none⟩]
    | _, _ =>
      if route.input.isSome || route.output.isSome then
        (match route.input with
          | some i => [(⟨jsOrStr i.symbol "Input", jsOrStr i.address "Unknown", none⟩ :
              FormattedTokenEntry)]
          | none => []) ++
        (match route.output with
          | some o => [(⟨jsOrStr o.symbol "Output", jsOrStr o.address "Unknown", none⟩ :
              FormattedTokenEntry)]
          | none => [])
      else
        match route.quote with
        | some q =>
          match q.currency with
          | some cur =>
            if jsTruthyStr cur.symbol then
              [⟨"Input", "Unknown", none⟩,
                ⟨jsUndefStr cur.symbol, jsOrStr cur.address "Unknown", none⟩]
            else []
          | none => []
        | none => []

/-- `QuoteController.getReadableRouteString` (lines 379-408).  JS
`Array.prototype.join` prints absent symbols as the empty string. -/
def getReadableRouteString (route : RawRoute) (tokenPath : List FormattedTokenEntry) : String :=
  match route.toStr with
  | some s => s
  | none =>
    if tokenPath.length ≥ 2 then
      String.intercalate " → " (tokenPath.map FormattedTokenEntry.symbol)
    else
      match route.tokenPath with
      | some toks => String.intercalate " → " (toks.map (fun t => (t.symbol).getD ""))
      | none =>
        match route.route with
        | some arr =>
            let protocols := String.intercalate "-" (arr.map (fun r => jsOrStr r.protocol "Unknown"))
            let plural := if arr.length > 1 then "s" else ""
            s!"Route via {protocols} protocol{plural}"
        | none => "Route details unavailable"

/-- The degraded output of `formatRoute`'s `catch` (lines 364-373). -/
def catchFormattedRoute (inputToken outputToken : Option FormattedTokenEntry) : FormattedRoute :=
  { routeString := "Error formatting route details"
    paths := []
    tokenPath := match inputToken, outputToken with
      | some it, some ot => [it, ot]
      | _, _ => []
    amountIn := "Unknown"
    amountOut := "Unknown"
    router := none }

/-- The `router` extra field from `route.methodParameters?.to`
(lines 313-318). -/
def routerField (route : RawRoute) : Option String :=
  if jsTruthyStr route.methodParametersTo then route.methodParametersTo else none

/-- The route string of the structured branch (lines 308-310); joining the
`route.route` object array stringifies each element to
`"[object Object]"`. -/
def structuredRouteString (route : RawRoute) (tokenPath : List FormattedTokenEntry) : String :=
  if tokenPath.length ≥ 2 then
    String.intercalate " → " (tokenPath.map FormattedTokenEntry.symbol)
  else
    match route.route with
    | some arr => String.intercalate ", " (arr.map (fun _ => "[object Object]"))
    | none => "Route details unavailable"

/-- `QuoteController.formatRoute(route, inputToken, outputToken)`
(lines 259-374): `null` route passes through; a trade with a non-empty
`swaps` array takes the structured branch (where a missing pool token
reference throws into the `catch`); otherwise the flat-extraction branch
runs. -/
def formatRoute (route : Option RawRoute)
    (inputToken outputToken : Option FormattedTokenEntry) : Option FormattedRoute :=
  match route with
  | none => none
  | some route =>
    match route.trade >>= RawTrade.swaps with
    | some (swap :: _) =>
        let tokenPath : List FormattedTokenEntry :=
          match swap.route >>= RawSwapRoute.tokenPath with
          | some toks =>
              toks.map (fun t => ⟨jsOrStr t.symbol "Unknown", jsOrStr t.address "Unknown",
                t.decimals⟩)
          | none =>
            match inputToken, outputToken with
            | some it, some ot => [it, ot]
            | _, _ => []
        let amountIn := jsOrStr swap.inputAmount
          (jsOrStr route.amountIn (jsOrStr route.amount "Unknown"))
        let amountOut := jsOrStr swap.outputAmount
          (jsOrStr route.amountOut (jsOrStr (route.quote >>= RawQuote.toExact)
            (jsOrStr route.quoteAmount "Unknown")))
        match swap.route >>= RawSwapRoute.pools with
        | some pools =>
          match poolsPathStrings pools with
          | none => some (catchFormattedRoute inputToken outputToken)
          | some pathStrs =>
            some
              { routeString := structuredRouteString route tokenPath
                paths := [{ protocol := jsOrStr (swap.route >>= RawSwapRoute.protocol) "V3"
                            path := pathStrs
                            fee := String.intercalate ", "
                              (pools.map (fun pool => poolFeeString pool.fee))
                            pools := some (pools.map formatPool) }]
                tokenPath := tokenPath
                amountIn := amountIn
                amountOut := amountOut
                router := routerField route }
        | none =>
            some
              { routeString := structuredRouteString route tokenPath
                paths := extractRoutePaths route
                tokenPath := tokenPath
                amountIn := amountIn
                amountOut := amountOut
                router := routerField route }
    | _ =>
        let tokenPath0 := extractTokenPath route
        let tokenPath :=
          if tokenPath0.length = 0 then
            match inputToken, outputToken with
            | some it, some ot => [it, ot]
            | _, _ => tokenPath0
          else tokenPath0
        some
          { routeString := getReadableRouteString route tokenPath
            paths := extractRoutePaths route
            tokenPath := tokenPath
            amountIn := jsOrStr route.amountIn (jsOrStr route.amount "Unknown")
            amountOut := jsOrStr route.amountOut (jsOrStr (route.quote >>= RawQuote.toExact)
              (jsOrStr route.quoteAmount "Unknown"))
            router := routerField route }

-- spec-side priority chain

/-- Spec-side definition of the amount priority chain: the first truthy
candidate wins, otherwise the literal `"Unknown"`. -/
def firstTruthy : List (Option String) → String → String
  | [], dflt => dflt
  | c :: rest, dflt => jsOrStr c (firstTruthy rest dflt)

/-- The hop-level input-amount candidate (`swap.inputAmount` of the first
swap, when the structured branch is taken). -/
def hopInputAmount (r : RawRoute) : Option String :=
  match r.trade >>= RawTrade.swaps with
  | some (swap :: _) => swap.inputAmount
  | _ => none

/-- The hop-level output-amount candidate. -/
def hopOutputAmount (r : RawRoute) : Option String :=
  match r.trade >>= RawTrade.swaps with
  | some (swap :: _) => swap.outputAmount
  | _ => none

/-- A raw route with every probed field absent. -/
def emptyRawRoute : RawRoute :=
  { trade := none, pools := none, route := none, path := none, fee := none,
    protocol := none, methodParametersTo := none, amountIn := none, amount := none,
    amountOut := none, quote := none, quoteAmount := none, tokenPath := none,
    tokenIn := none, tokenOut := none, input := none, output := none, toStr := none }

-- C7

/-- A `route.route` array element carrying the basis-point fee 3000. -/
def feeRouteElem : RawRouteElem :=
  { protocol := some "V3", fee := some 3000, poolAddresses := none, pools := none, pool := none }

/-- C7 counterexample: a raw route whose only path data is a
`route.route`-array element with fee 3000 renders the fee as the raw string
`"3000"`, not as the percentage string `"0.30%"` the divide-by-10,000
contract produces — the formatting is not applied on every extraction
path. -/
theorem C7_counterexample :
    (formatRoute (some { emptyRawRoute with route := some [feeRouteElem] }) none none).map
        (fun f => f.paths.map FormattedPath.fee) = some ["3000"] ∧
      formatFeeBps 3000 = "0.30%" ∧ ("3000" : String) ≠ "0.30%" := by
  refine ⟨rfl, rfl, by decide⟩

/-- C7 amended: the divide-by-10,000 two-decimal percentage rendering (fee
3000 ↦ "0.30%") is applied to every fee emitted on the pool-based
extraction paths (`formatRoute`'s pool entries and `extractRoutePaths`'s
`route.pools` branch), while the `route.route`-array branch emits the raw
`fee?.toString()` instead. -/
theorem C7_amended_fee_formatting :
    (∀ n : Nat, n ≠ 0 → poolFeeString (some n) = formatFeeBps n) ∧
    poolFeeString (some 3000) = "0.30%" ∧
    (∀ (pool : RawPool) (n : Nat), pool.fee = some n → n ≠ 0 →
      (formatPool pool).fee = formatFeeBps n) ∧
    (∀ (r : RawRoute) (pools : List RawPool), r.pools = some pools →
      (extractRoutePaths r).map FormattedPath.fee
        = [String.intercalate ", " (pools.map (fun pool => poolFeeString pool.fee))]) ∧
    (∀ (r : RawRoute) (arr : List RawRouteElem), r.pools = none → r.route = some arr →
      (extractRoutePaths r).map FormattedPath.fee = arr.map (fun p => rawFeeString p.fee)) := by
  refine ⟨?_, rfl, ?_, ?_, ?_⟩
  · intro n hn
    simp [poolFeeString, hn]
  · intro pool n hfee hn
    simp [formatPool, poolFeeString, hfee, hn]
  · intro r pools hp
    unfold extractRoutePaths
    rw [hp]
    rfl
  · intro r arr hp hr
    unfold extractRoutePaths
    rw [hp, hr]
    simp

/-- Witness for C7 amended at fee 3000 and a concrete one-element
`route.route` array. -/
theorem C7_amended_witness :
    (3000 ≠ 0 ∧ poolFeeString (some 3000) = formatFeeBps 3000) ∧
    (extractRoutePaths { emptyRawRoute with route := some [feeRouteElem] }).map
        FormattedPath.fee = [feeRouteElem].map (fun p => rawFeeString p.fee) :=
  ⟨⟨by decide, C7_amended_fee_formatting.1 3000 (by decide)⟩,
    C7_amended_fee_formatting.2.2.2.2 { emptyRawRoute with route := some [feeRouteElem] }
      [feeRouteElem] rfl rfl⟩

-- C8

/-- A pool with absent token references: serialising its path throws. -/
def throwingPool : RawPool :=
  { fee := some 3000, liquidity := none, address := none, id := none,
    token0 := none, token1 := none }

/-- A structured swap route containing `throwingPool`. -/
def throwingSwapRoute : RawSwapRoute :=
  { tokenPath := none, pools := some [throwingPool], protocol := none }

/-- A swap whose pool data throws during path construction. -/
def throwingSwap : RawSwap :=
  { route := some throwingSwapRoute, inputAmount := none, outputAmount := none }

/-- C8 counterexample: on a raw route carrying `amountIn = "5"` whose pool
data throws during formatting, the catch handler emits `"Unknown"` even
though the priority chain would have produced `"5"` — the chain is not
followed on the exception path. -/
theorem C8_counterexample :
    (formatRoute (some { emptyRawRoute with
        trade := some { swaps := some [throwingSwap] }, amountIn := some "5" }) none none).map
      FormattedRoute.amountIn = some "Unknown" ∧
    firstTruthy [hopInputAmount { emptyRawRoute with
        trade := some { swaps := some [throwingSwap] }, amountIn := some "5" },
      some "5", none] "Unknown" = "5" := by
  constructor
  · rfl
  · rfl

/-- C8 amended: whenever `formatRoute` returns a route, either it is the
degraded catch output (amounts `"Unknown"` regardless of candidates), or
both amount fields equal the first-truthy priority chain — hop-level
amount, then route-level amount, then quote-level amount — with the literal
`"Unknown"` sentinel when no candidate resolves (never a numeric zero). -/
theorem C8_amended_amount_priority :
    ∀ (r : RawRoute) (it ot : Option FormattedTokenEntry) (f : FormattedRoute),
      formatRoute (some r) it ot = some f →
      (f = catchFormattedRoute it ot ∧ f.amountIn = "Unknown" ∧ f.amountOut = "Unknown") ∨
      (f.amountIn = firstTruthy [hopInputAmount r, r.amountIn, r.amount] "Unknown" ∧
        f.amountOut = firstTruthy [hopOutputAmount r, r.amountOut,
          r.quote >>= RawQuote.toExact, r.quoteAmount] "Unknown") := by
  intro r it ot f h
  unfold formatRoute at h
  dsimp only at h
  unfold hopInputAmount hopOutputAmount
  cases hsw : r.trade >>= RawTrade.swaps with
  | none =>
      rw [hsw] at h
      try dsimp only at h
      injection h with h
      right
      subst h
      simp [firstTruthy, jsOrStr]
  | some swaps =>
      rw [hsw] at h
      cases swaps with
      | nil =>
          try dsimp only at h
          injection h with h
          right
          subst h
          simp [firstTruthy, jsOrStr]
      | cons swap rest =>
          try dsimp only at h
          cases hp : swap.route >>= RawSwapRoute.pools with
          | none =>
              rw [hp] at h
              try dsimp only at h
              injection h with h
              right
              subst h
              simp [firstTruthy, jsOrStr]
          | some pools =>
              rw [hp] at h
              try dsimp only at h
              cases hps : poolsPathStrings pools with
              | none =>
                  rw [hps] at h
                  try dsimp only at h
                  injection h with h
                  left
                  subst h
                  exact ⟨rfl, rfl, rfl⟩
              | some pathStrs =>
                  rw [hps] at h
                  try dsimp only at h
                  injection h with h
                  right
                  subst h
                  simp [firstTruthy, jsOrStr]

/-- Witness for C8 amended at a concrete route with only a route-level
amount. -/
theorem C8_amended_witness :
    ∃ f, formatRoute (some { emptyRawRoute with amountIn := some "7" }) none none = some f ∧
      ((f = catchFormattedRoute none none ∧ f.amountIn = "Unknown" ∧ f.amountOut = "Unknown") ∨
        (f.amountIn = firstTruthy [hopInputAmount { emptyRawRoute with amountIn := some "7" },
            ({ emptyRawRoute with amountIn := some "7" } : RawRoute).amountIn,
            ({ emptyRawRoute with amountIn := some "7" } : RawRoute).amount] "Unknown" ∧
          f.amountOut = firstTruthy [hopOutputAmount { emptyRawRoute with amountIn := some "7" },
            ({ emptyRawRoute with amountIn := some "7" } : RawRoute).amountOut,
            ({ emptyRawRoute with amountIn := some "7" } : RawRoute).quote >>= RawQuote.toExact,
            ({ emptyRawRoute with amountIn := some "7" } : RawRoute).quoteAmount] "Unknown")) :=
  ⟨_, rfl, C8_amended_amount_priority { emptyRawRoute with amountIn := some "7" } none none _ rfl⟩


/-! ## Cycle-safe serialization (`QuoteController.createSafeRouteCopy`,
`src/controllers/quoteController.ts` lines 184-253)

JS objects are identities in a heap, so the embedding uses an explicit heap:
`JVal` are the values a property can hold, `JHeap` maps addresses to object
contents.  The mutable `visited` `Set` of the source is threaded through the
recursion as a list of addresses.  JS recursion has no fuel; the `fuel`
parameter is the termination device of the embedding and `serialize_total`
proves the fuel `createSafeRouteCopy` supplies can never run out on a
well-formed heap, which is the embedding's rendering of termination. -/

/-- A JS value: `null`/`undefined`, a primitive (collapsed to its string
rendering), a function, or a reference to a heap object. -/
inductive JVal where
  | vNull
  | vPrim (s : String)
  | vFun
  | vRef (a : Nat)
deriving DecidableEq, Repr

/-- A heap object: an array, or an object with an optional callable
`toExact` (returning the given string), an optional own `toString` returning
something other than `"[object Object]"`, and its enumerable fields. -/
inductive JObj where
  | arr (elems : List JVal)
  | obj (toExact : Option String) (toStr : Option String) (fields : List (String × JVal))
deriving DecidableEq, Repr

/-- The heap: `size` bounds the address space of well-formed graphs. -/
structure JHeap where
  size : Nat
  objs : Nat → JObj

/-- The serialized output: `sRaw` marks values the special token-key branch
copies verbatim without processing. -/
inductive SVal where
  | sNull
  | sPrim (s : String)
  | sFun
  | sRaw (v : JVal)
  | sArr (elems : List SVal)
  | sObj (fields : List (String × SVal))
deriving Repr

/-- JS truthiness of a value (primitives are falsy for the renderings of
`""`, `0` and `false`). -/
def jsTruthy : JVal → Bool
  | .vNull => false
  | .vPrim s => ¬(s = "" ∨ s = "0" ∨ s = "false")
  | .vFun => true
  | .vRef _ => true

/-- The token-object keys special-cased at line 230. -/
def specialKeys : List String := ["currency", "token", "inputToken", "outputToken"]

/-- Property lookup in a field list. -/
def lookupField : List (String × JVal) → String → JVal
  | [], _ => .vNull
  | (k', v) :: rest, k => if k' = k then v else lookupField rest k

/-- `v[k]`: property access, `undefined` (here `vNull`) on non-objects and
missing keys. -/
def getField (h : JHeap) (v : JVal) (k : String) : JVal :=
  match v with
  | .vRef a =>
    match h.objs a with
    | .obj _ _ fields => lookupField fields k
    | .arr _ => .vNull
  | _ => .vNull

/-- The shallow `{address, symbol, decimals}` copy built for special token
keys (lines 230-239); the values are copied raw, without recursion. -/
def specialCopy (h : JHeap) (v : JVal) : SVal :=
  .sObj [("address", .sRaw (getField h v "address")),
    ("symbol", .sRaw (getField h v "symbol")),
    ("decimals", .sRaw (getField h v "decimals"))]

mutual

/-- The inner `makeSerializable` closure: primitives and functions pass
through, a visited object becomes the `"[Circular]"` marker, otherwise the
object is added to `visited` and arrays map, `toExact`/`toString` overrides
return strings, and plain objects recurse over their fields. -/
def makeSerializable : JHeap → Nat → List Nat → JVal → Option SVal × List Nat
  | _, _, visited, .vNull => (some .sNull, visited)
  | _, _, visited, .vPrim s => (some (.sPrim s), visited)
  | _, _, visited, .vFun => (some .sFun, visited)
  | _, 0, visited, .vRef _ => (none, visited)
  | h, fuel + 1, visited, .vRef a =>
    if a ∈ visited then (some (.sPrim "[Circular]"), visited)
    else
      match h.objs a with
      | .arr elems =>
        match serializeList h fuel (a :: visited) elems with
        | (some l, vis2) => (some (.sArr l), vis2)
        | (none, vis2) => (none, vis2)
      | .obj (some ex) _ _ => (some (.sPrim ex), a :: visited)
      | .obj none (some ts) _ => (some (.sPrim ts), a :: visited)
      | .obj none none fields =>
        match serializeFields h fuel (a :: visited) fields with
        | (some fs, vis2) => (some (.sObj fs), vis2)
        | (none, vis2) => (none, vis2)
termination_by h fuel visited v => (fuel, sizeOf v)

/-- `obj.map(item => makeSerializable(item))` with the shared visited
set threaded left to right. -/
def serializeList : JHeap → Nat → List Nat → List JVal → Option (List SVal) × List Nat
  | _, _, visited, [] => (some [], visited)
  | h, fuel, visited, v :: rest =>
    match makeSerializable h fuel visited v with
    | (some sv, vis1) =>
      match serializeList h fuel vis1 rest with
      | (some sl, vis2) => (some (sv :: sl), vis2)
      | (none, vis2) => (none, vis2)
    | (none, vis1) => (none, vis1)
termination_by h fuel visited l => (fuel, sizeOf l)

/-- The `for (const key in obj)` loop: functions are skipped, special
token keys with truthy `address`/`symbol` get the shallow copy, all other
fields recurse. -/
def serializeFields : JHeap → Nat → List Nat → List (String × JVal) →
    Option (List (String × SVal)) × List Nat
  | _, _, visited, [] => (some [], visited)
  | h, fuel, visited, (k, v) :: rest =>
    if v = .vFun then serializeFields h fuel visited rest
    else
      if specialKeys.contains k && jsTruthy v && jsTruthy (getField h v "address")
          && jsTruthy (getField h v "symbol") then
        match serializeFields h fuel visited rest with
        | (some fs, vis1) => (some ((k, specialCopy h v) :: fs), vis1)
        | (none, vis1) => (none, vis1)
      else
        match makeSerializable h fuel visited v with
        | (some sv, vis1) =>
          match serializeFields h fuel vis1 rest with
          | (some fs, vis2) => (some ((k, sv) :: fs), vis2)
          | (none, vis2) => (none, vis2)
        | (none, vis1) => (none, vis1)
termination_by h fuel visited l => (fuel, sizeOf l)

end

/-- `createSafeRouteCopy(route)`: falsy routes return `null`; otherwise run
`makeSerializable` with enough fuel for every object in the heap. -/
def createSafeRouteCopy (h : JHeap) (route : JVal) : Option SVal :=
  if jsTruthy route = false then some .sNull
  else (makeSerializable h (h.size + 1) [] route).1

/- well-formedness -/

/-- References of a value stay below the heap bound. -/
def refBound (n : Nat) : JVal → Bool
  | .vRef a => a < n
  | _ => true

/-- Every value stored in an object respects the heap bound. -/
def objWf (n : Nat) : JObj → Bool
  | .arr es => es.all (fun v => refBound n v)
  | .obj _ _ fs => fs.all (fun kv => refBound n kv.2)

/-- A well-formed heap: every reachable reference stays inside the address
space (JS guarantees this; dangling references cannot be constructed). -/
def JHeap.Wf (h : JHeap) : Prop := ∀ a, a < h.size → objWf h.size (h.objs a) = true

/-- How many addresses of the heap are not yet visited — the quantity the
visited-set tracking makes strictly decrease at every object visit. -/
def freeCount (n : Nat) (visited : List Nat) : Nat :=
  ((Finset.range n).filter (fun a => a ∉ visited)).card

/-- With nothing visited the whole address space is free. -/
lemma freeCount_nil (n : Nat) : freeCount n [] = n := by
  simp [freeCount]

/-- Growing the visited set cannot increase the free count. -/
lemma freeCount_le_of_subset {n : Nat} {v1 v2 : List Nat} (h : v1 ⊆ v2) :
    freeCount n v2 ≤ freeCount n v1 := by
  apply Finset.card_le_card
  intro x hx
  simp only [Finset.mem_filter, Finset.mem_range] at hx ⊢
  exact ⟨hx.1, fun hc => hx.2 (h hc)⟩

/-- Visiting a fresh in-bounds address strictly decreases the free count. -/
lemma freeCount_cons_lt {n a : Nat} {visited : List Nat} (ha : a < n) (hnot : a ∉ visited) :
    freeCount n (a :: visited) < freeCount n visited := by
  apply Finset.card_lt_card
  constructor
  · intro x hx
    simp only [Finset.mem_filter, Finset.mem_range, List.mem_cons] at hx ⊢
    exact ⟨hx.1, fun hc => hx.2 (Or.inr hc)⟩
  · intro hsub
    have := hsub (by simp [Finset.mem_filter, ha, hnot] : a ∈ (Finset.range n).filter
      (fun x => x ∉ visited))
    simp [Finset.mem_filter] at this

/- totality with sufficient fuel, together with growth of the visited set -/

/-- Totality: with fuel exceeding the number of unvisited addresses, the
serializers always produce a value (the busy recursion terminates, nothing
is raised) and only ever grow the visited set. -/
lemma serialize_total (h : JHeap) (hwf : h.Wf) : ∀ fuel : Nat,
    (∀ (visited : List Nat) (v : JVal), refBound h.size v = true →
      freeCount h.size visited < fuel →
      (makeSerializable h fuel visited v).1.isSome = true ∧
        visited ⊆ (makeSerializable h fuel visited v).2) ∧
    (∀ (visited : List Nat) (l : List JVal), (∀ v ∈ l, refBound h.size v = true) →
      freeCount h.size visited < fuel →
      (serializeList h fuel visited l).1.isSome = true ∧
        visited ⊆ (serializeList h fuel visited l).2) ∧
    (∀ (visited : List Nat) (l : List (String × JVal)),
      (∀ kv ∈ l, refBound h.size kv.2 = true) →
      freeCount h.size visited < fuel →
      (serializeFields h fuel visited l).1.isSome = true ∧
        visited ⊆ (serializeFields h fuel visited l).2) := by
  intro fuel
  induction fuel with
  | zero =>
      refine ⟨?_, ?_, ?_⟩ <;> intro visited x hx hfc <;> exact absurd hfc (by omega)
  | succ fuel IH =>
      obtain ⟨IHv, IHl, IHf⟩ := IH
      have hval : ∀ (visited : List Nat) (v : JVal), refBound h.size v = true →
          freeCount h.size visited < fuel + 1 →
          (makeSerializable h (fuel + 1) visited v).1.isSome = true ∧
            visited ⊆ (makeSerializable h (fuel + 1) visited v).2 := by
        intro visited v hrb hfc
        match v with
        | .vNull => simp only [makeSerializable]; exact ⟨rfl, fun x hx => hx⟩
        | .vPrim s => simp only [makeSerializable]; exact ⟨rfl, fun x hx => hx⟩
        | .vFun => simp only [makeSerializable]; exact ⟨rfl, fun x hx => hx⟩
        | .vRef a =>
          have ha : a < h.size := by simpa [refBound] using hrb
          simp only [makeSerializable]
          by_cases hmem : a ∈ visited
          · rw [if_pos hmem]
            exact ⟨rfl, fun x hx => hx⟩
          · rw [if_neg hmem]
            have hsub1 : visited ⊆ a :: visited := fun x hx => List.mem_cons_of_mem _ hx
            have hfc1 : freeCount h.size (a :: visited) < fuel := by
              have := freeCount_cons_lt ha hmem
              omega
            have hobj := hwf a ha
            match hob : h.objs a with
            | .arr elems =>
              dsimp only
              have helem : ∀ v ∈ elems, refBound h.size v = true := by
                rw [hob] at hobj
                simpa [objWf, List.all_eq_true] using hobj
              obtain ⟨hs, hv⟩ := IHl (a :: visited) elems helem hfc1
              match hres : serializeList h fuel (a :: visited) elems with
              | (some l, vis2) =>
                  dsimp only
                  rw [hres] at hv
                  exact ⟨rfl, fun x hx => hv (hsub1 hx)⟩
              | (none, vis2) =>
                  rw [hres] at hs
                  simp at hs
            | .obj (some ex) ts fs =>
              dsimp only
              exact ⟨rfl, fun x hx => hsub1 hx⟩
            | .obj none (some ts) fs =>
              dsimp only
              exact ⟨rfl, fun x hx => hsub1 hx⟩
            | .obj none none fields =>
              dsimp only
              have hfield : ∀ kv ∈ fields, refBound h.size kv.2 = true := by
                rw [hob] at hobj
                simpa [objWf, List.all_eq_true] using hobj
              obtain ⟨hs, hv⟩ := IHf (a :: visited) fields hfield hfc1
              match hres : serializeFields h fuel (a :: visited) fields with
              | (some fs2, vis2) =>
                  dsimp only
                  rw [hres] at hv
                  exact ⟨rfl, fun x hx => hv (hsub1 hx)⟩
              | (none, vis2) =>
                  rw [hres] at hs
                  simp at hs
      refine ⟨hval, ?_, ?_⟩
      · intro visited l
        induction l generalizing visited with
        | nil =>
            intro hrb hfc
            simp only [serializeList]
            exact ⟨rfl, fun x hx => hx⟩
        | cons v rest IHrest =>
            intro hrb hfc
            obtain ⟨hs1, hv1⟩ := hval visited v (hrb v (by simp)) hfc
            simp only [serializeList]
            match hres1 : makeSerializable h (fuel + 1) visited v with
            | (some sv, vis1) =>
                dsimp only
                rw [hres1] at hv1
                have hfc2 : freeCount h.size vis1 < fuel + 1 :=
                  lt_of_le_of_lt (freeCount_le_of_subset hv1) hfc
                obtain ⟨hs2, hv2⟩ := IHrest vis1 (fun x hx => hrb x (by simp [hx])) hfc2
                match hres2 : serializeList h (fuel + 1) vis1 rest with
                | (some sl, vis2) =>
                    dsimp only
                    rw [hres2] at hv2
                    exact ⟨rfl, fun x hx => hv2 (hv1 hx)⟩
                | (none, vis2) =>
                    rw [hres2] at hs2
                    simp at hs2
            | (none, vis1) =>
                rw [hres1] at hs1
                simp at hs1
      · intro visited l
        induction l generalizing visited with
        | nil =>
            intro hrb hfc
            simp only [serializeFields]
            exact ⟨rfl, fun x hx => hx⟩
        | cons kv rest IHrest =>
            intro hrb hfc
            obtain ⟨k, v⟩ := kv
            simp only [serializeFields]
            by_cases hfun : v = .vFun
            · rw [if_pos hfun]
              exact IHrest visited (fun x hx => hrb x (by simp [hx])) hfc
            · rw [if_neg hfun]
              by_cases hsp : (specialKeys.contains k && jsTruthy v
                  && jsTruthy (getField h v "address")
                  && jsTruthy (getField h v "symbol")) = true
              · rw [if_pos hsp]
                obtain ⟨hs2, hv2⟩ := IHrest visited (fun x hx => hrb x (by simp [hx])) hfc
                match hres : serializeFields h (fuel + 1) visited rest with
                | (some fs, vis1) =>
                    dsimp only
                    rw [hres] at hv2
                    exact ⟨rfl, hv2⟩
                | (none, vis1) =>
                    rw [hres] at hs2
                    simp at hs2
              · rw [if_neg hsp]
                obtain ⟨hs1, hv1⟩ := hval visited v (hrb (k, v) (by simp)) hfc
                match hres1 : makeSerializable h (fuel + 1) visited v with
                | (some sv, vis1) =>
                    dsimp only
                    rw [hres1] at hv1
                    have hfc2 : freeCount h.size vis1 < fuel + 1 :=
                      lt_of_le_of_lt (freeCount_le_of_subset hv1) hfc
                    obtain ⟨hs2, hv2⟩ := IHrest vis1 (fun x hx => hrb x (by simp [hx])) hfc2
                    match hres2 : serializeFields h (fuel + 1) vis1 rest with
                    | (some fs, vis2) =>
                        dsimp only
                        rw [hres2] at hv2
                        exact ⟨rfl, fun x hx => hv2 (hv1 hx)⟩
                    | (none, vis2) =>
                        rw [hres2] at hs2
                        simp at hs2
                | (none, vis1) =>
                    rw [hres1] at hs1
                    simp at hs1

/-- Processing the fields of an already-visited object `a`: whatever
precedes it, the field holding the back-reference `vRef a` comes out as the
`"[Circular]"` marker at its position in the output. -/
lemma serializeFields_circular (h : JHeap) (hwf : h.Wf) :
    ∀ (pre : List (String × JVal)) (fuel : Nat) (visited : List Nat) (k : String) (a : Nat)
      (post : List (String × JVal)),
      a ∈ visited → specialKeys.contains k = false →
      (∀ kv ∈ pre ++ (k, JVal.vRef a) :: post, refBound h.size kv.2 = true) →
      freeCount h.size visited < fuel →
      ∃ spre spost,
        (serializeFields h fuel visited (pre ++ (k, .vRef a) :: post)).1
          = some (spre ++ (k, SVal.sPrim "[Circular]") :: spost) := by
  intro pre
  induction pre with
  | nil =>
      intro fuel visited k a post hmem hk hrb hfc
      simp only [List.nil_append, serializeFields]
      rw [if_neg (by simp)]
      rw [if_neg (by rw [hk]; simp)]
      cases fuel with
      | zero => exact absurd hfc (by omega)
      | succ f =>
          simp only [makeSerializable]
          rw [if_pos hmem]
          dsimp only
          obtain ⟨hs, _⟩ := (serialize_total h hwf (f + 1)).2.2 visited post
            (fun kv hkv => hrb kv (List.mem_cons_of_mem _ hkv)) hfc
          match hres : serializeFields h (f + 1) visited post with
          | (some fs, vis1) =>
              dsimp only
              exact ⟨[], fs, rfl⟩
          | (none, vis1) =>
              rw [hres] at hs
              simp at hs
  | cons kv pre' IH =>
      intro fuel visited k a post hmem hk hrb hfc
      obtain ⟨k', v'⟩ := kv
      simp only [List.cons_append, serializeFields]
      by_cases hfun : v' = .vFun
      · rw [if_pos hfun]
        exact IH fuel visited k a post hmem hk (fun kv hkv => hrb kv (List.mem_cons_of_mem _ hkv)) hfc
      · rw [if_neg hfun]
        by_cases hsp : (specialKeys.contains k' && jsTruthy v'
            && jsTruthy (getField h v' "address") && jsTruthy (getField h v' "symbol")) = true
        · rw [if_pos hsp]
          obtain ⟨spre, spost, hres⟩ := IH fuel visited k a post hmem hk
            (fun kv hkv => hrb kv (List.mem_cons_of_mem _ hkv)) hfc
          match hres2 : serializeFields h fuel visited (pre' ++ (k, .vRef a) :: post) with
          | (some fs, vis1) =>
              dsimp only
              rw [hres2] at hres
              simp only [Option.some.injEq] at hres
              refine ⟨(k', specialCopy h v') :: spre, spost, ?_⟩
              rw [hres]
              rfl
          | (none, vis1) =>
              rw [hres2] at hres
              simp at hres
        · rw [if_neg hsp]
          have hrbv : refBound h.size v' = true := hrb (k', v') (List.mem_cons_self _ _)
          obtain ⟨hs1, hv1⟩ := (serialize_total h hwf fuel).1 visited v' hrbv hfc
          match hres1 : makeSerializable h fuel visited v' with
          | (some sv, vis1) =>
              dsimp only
              rw [hres1] at hv1
              have hmem1 : a ∈ vis1 := hv1 hmem
              have hfc1 : freeCount h.size vis1 < fuel :=
                lt_of_le_of_lt (freeCount_le_of_subset hv1) hfc
              obtain ⟨spre, spost, hres⟩ := IH fuel vis1 k a post hmem1 hk
                (fun kv hkv => hrb kv (List.mem_cons_of_mem _ hkv)) hfc1
              match hres2 : serializeFields h fuel vis1 (pre' ++ (k, .vRef a) :: post) with
              | (some fs, vis2) =>
                  dsimp only
                  rw [hres2] at hres
                  simp only [Option.some.injEq] at hres
                  refine ⟨(k', sv) :: spre, spost, ?_⟩
                  rw [hres]
                  rfl
              | (none, vis2) =>
                  rw [hres2] at hres
                  simp at hres
          | (none, vis1) =>
              rw [hres1] at hs1
              simp at hs1

/-- C2: on any well-formed heap `createSafeRouteCopy` terminates with a
result (never raises and never loops, rendered as: the fuel it supplies is
proven sufficient); and for any object with a field pointing back to
itself — at whatever depth the traversal reaches it — the serialized object
carries the `"[Circular]"` marker at that field's position, by virtue of the
visited-identity tracking. -/
theorem C2_createSafeRouteCopy_cycle_safe :
    (∀ (h : JHeap) (v : JVal), h.Wf → refBound h.size v = true →
        (createSafeRouteCopy h v).isSome = true) ∧
    (∀ (h : JHeap) (a : Nat) (k : String) (pre post : List (String × JVal)),
        h.Wf → a < h.size →
        h.objs a = .obj none none (pre ++ (k, .vRef a) :: post) →
        specialKeys.contains k = false →
        ∃ spre spost,
          createSafeRouteCopy h (.vRef a)
            = some (.sObj (spre ++ (k, SVal.sPrim "[Circular]") :: spost))) := by
  constructor
  · intro h v hwf hrb
    unfold createSafeRouteCopy
    by_cases ht : jsTruthy v = false
    · rw [if_pos ht]
      rfl
    · rw [if_neg ht]
      have hfc : freeCount h.size [] < h.size + 1 := by rw [freeCount_nil]; omega
      exact ((serialize_total h hwf (h.size + 1)).1 [] v hrb hfc).1
  · intro h a k pre post hwf ha hobj hk
    unfold createSafeRouteCopy
    rw [if_neg (by simp [jsTruthy])]
    simp only [makeSerializable]
    rw [if_neg (List.not_mem_nil a)]
    rw [hobj]
    dsimp only
    have hfields : ∀ kv ∈ pre ++ (k, JVal.vRef a) :: post, refBound h.size kv.2 = true := by
      have hw := hwf a ha
      rw [hobj] at hw
      simp only [objWf, List.all_eq_true] at hw
      exact hw
    have hfc : freeCount h.size [a] < h.size := by
      have h1 := @freeCount_cons_lt h.size a [] ha (List.not_mem_nil a)
      rw [freeCount_nil] at h1
      exact h1
    obtain ⟨spre, spost, hres⟩ :=
      serializeFields_circular h hwf pre h.size [a] k a post (by simp) hk hfields hfc
    match hres2 : serializeFields h h.size [a] (pre ++ (k, .vRef a) :: post) with
    | (some fs, vis2) =>
        dsimp only
        rw [hres2] at hres
        simp only [Option.some.injEq] at hres
        refine ⟨spre, spost, ?_⟩
        rw [hres]
    | (none, vis2) =>
        rw [hres2] at hres
        simp at hres

/-- A one-object heap whose object points back to itself through its
`"self"` field. -/
def cyclicHeap : JHeap :=
  { size := 1, objs := fun _ => .obj none none [("self", .vRef 0), ("x", .vPrim "1")] }

/-- Witness for C2 on the concrete self-referential heap. -/
theorem C2_witness :
    (cyclicHeap.Wf ∧ refBound cyclicHeap.size (.vRef 0) = true ∧
      (createSafeRouteCopy cyclicHeap (.vRef 0)).isSome = true) ∧
    (0 < cyclicHeap.size ∧
      cyclicHeap.objs 0 = .obj none none ([] ++ ("self", .vRef 0) :: [("x", .vPrim "1")]) ∧
      specialKeys.contains "self" = false ∧
      ∃ spre spost, createSafeRouteCopy cyclicHeap (.vRef 0)
        = some (.sObj (spre ++ ("self", SVal.sPrim "[Circular]") :: spost))) := by
  have hwf : cyclicHeap.Wf := by
    intro a ha
    have ha1 : a < 1 := ha
    have ha0 : a = 0 := by omega
    subst ha0
    decide
  exact ⟨⟨hwf, by decide,
      C2_createSafeRouteCopy_cycle_safe.1 cyclicHeap (.vRef 0) hwf (by decide)⟩,
    by decide, rfl, by decide,
    C2_createSafeRouteCopy_cycle_safe.2 cyclicHeap 0 "self" [] [("x", .vPrim "1")]
      hwf (by decide) rfl (by decide)⟩
